import Mathlib

/-!
Verification of the attendance-pipeline core of the ZKTECO_attandance
repository (src/unnamed/part_004 and the surrounding server code).

The JavaScript source is shallowly embedded: the module-level mutable
variables (pushQueue, rushHandlingStats, concurrentPushCount,
isProcessingQueue, lastPolledTimestamp, isPollingInProgress,
connectionAttempts, pushStatistics) become explicit state records, and the
functions that mutate them become state-passing Lean functions.  Timestamps
are JavaScript Date values compared through getTime(); they are modelled as
natural numbers (milliseconds).  Network effects (fetch to the external
sink, device reads) are modelled by passing the response the outside world
would give as an explicit argument.
-/

namespace ZKTeco

/-- Retry strategy block of RUSH_HANDLING_CONFIG (part_004 lines 707-711). -/
structure RetryStrategy where
  maxRetries : Nat
  baseDelay : Nat
  maxDelay : Nat
  deriving DecidableEq

/-- Shape of RUSH_HANDLING_CONFIG (part_004 lines 701-712). -/
structure RushConfig where
  enabled : Bool
  maxConcurrentPushes : Nat
  queueSize : Nat
  processingDelay : Nat
  batchSize : Nat
  retryStrategy : RetryStrategy
  deriving DecidableEq

/-- The concrete RUSH_HANDLING_CONFIG constant from part_004 lines 701-712. -/
def RUSH_HANDLING_CONFIG : RushConfig where
  enabled := true
  maxConcurrentPushes := 3
  queueSize := 500
  processingDelay := 50
  batchSize := 5
  retryStrategy := { maxRetries := 2, baseDelay := 1000, maxDelay := 5000 }

/-- MAX_RETRIES for the device connection (part_004 line 698). -/
def MAX_RETRIES : Nat := 5

/-- A normalized attendance record as built by the poll path and the
real-time path (part_004 lines 1123-1137 and 1276-1287); only the fields
the verified claims inspect are kept, with the timestamp in milliseconds. -/
structure AttendanceRecord where
  userId : String
  userName : String
  timestamp : Nat
  verificationMethod : String
  punchType : String
  deriving DecidableEq

/-- A queue item as built by addToProcessingQueue (part_004 lines 769-774);
the random id string is kept opaque. -/
structure QueueItem where
  id : String
  record : AttendanceRecord
  attemptCount : Nat
  deriving DecidableEq

/-- The module state touched by the queue-admission code: the pushQueue
array plus the two rushHandlingStats counters the admission paths update
(part_004 lines 729-739). The queue is a list with the OLDEST item first
(Array.prototype.shift removes the front, push appends to the back). -/
structure RushState where
  pushQueue : List QueueItem
  totalDropped : Nat
  totalQueued : Nat
  deriving DecidableEq

/-- Initial module state: empty queue, zeroed counters (part_004 729-739). -/
def initialRushState : RushState :=
  { pushQueue := [], totalDropped := 0, totalQueued := 0 }

/-- addToProcessingQueue (part_004 lines 768-801): if the queue length has
reached queueSize, shift off the single oldest item and bump totalDropped,
then push the new item on the back and bump totalQueued. -/
def addToProcessingQueue (cfg : RushConfig) (s : RushState) (item : QueueItem) :
    RushState :=
  let s1 :=
    if cfg.queueSize ≤ s.pushQueue.length then
      { s with pushQueue := s.pushQueue.tail, totalDropped := s.totalDropped + 1 }
    else s
  { s1 with pushQueue := s1.pushQueue ++ [item], totalQueued := s1.totalQueued + 1 }

/-- The retry re-admission performed by the setTimeout callback in
processQueueItem (part_004 lines 884-890): pushQueue.push(queueItem) with
no capacity check and no counter update. -/
def retryPushBack (s : RushState) (item : QueueItem) : RushState :=
  { s with pushQueue := s.pushQueue ++ [item] }

/-- One admission to the delivery queue: either a fresh admission through
addToProcessingQueue or a retry re-admission from processQueueItem. -/
inductive Admission where
  | fresh (item : QueueItem)
  | retry (item : QueueItem)
  deriving DecidableEq

/-- Apply one admission to the queue state. -/
def applyAdmission (cfg : RushConfig) (s : RushState) : Admission → RushState
  | Admission.fresh item => addToProcessingQueue cfg s item
  | Admission.retry item => retryPushBack s item

/-- Run a sequence of admissions against the queue state. -/
def runAdmissions (cfg : RushConfig) (s : RushState) (l : List Admission) :
    RushState :=
  l.foldl (applyAdmission cfg) s

/-- A concrete queue item used in concrete evaluations. -/
def sampleItem : QueueItem :=
  { id := "queue-1"
    record :=
      { userId := "1", userName := "A", timestamp := 1000
        verificationMethod := "Face", punchType := "Check-out" }
    attemptCount := 0 }

/-- The worker-loop state the concurrency cap is about: the queue length and
the concurrentPushCount counter (part_004 lines 738-740).  JavaScript is
single threaded: between computing availableSlots and calling
processQueueItem on each item of the batch (which increments the counter
before its first await, lines 817-831 and 856), no other code runs, so one
loop iteration is one atomic step. -/
structure WorkerState where
  queueLength : Nat
  concurrentPushCount : Nat
  deriving DecidableEq

/-- One atomic step of the delivery system as it affects the concurrency
counter (processQueue, part_004 lines 806-850, and processQueueItem, lines
855-909):
dispatch is one loop iteration with availableSlots positive, taking a batch
of min(availableSlots, batchSize, queueLength) items off the queue and
incrementing concurrentPushCount once per item; waitRecheck is the
availableSlots non-positive branch (sleep processingDelay, recheck);
complete is one in-flight delivery finishing (the finally block decrement);
enqueue is an admission growing the queue (drop-oldest admissions keep the
length unchanged, which the concurrency counter never depends on). -/
inductive WorkerStep (cfg : RushConfig) : WorkerState → WorkerState → Prop where
  | dispatch (q c : Nat) (h : 0 < cfg.maxConcurrentPushes - c) :
      WorkerStep cfg ⟨q, c⟩
        ⟨q - min (min (cfg.maxConcurrentPushes - c) cfg.batchSize) q,
         c + min (min (cfg.maxConcurrentPushes - c) cfg.batchSize) q⟩
  | waitRecheck (q c : Nat) (h : cfg.maxConcurrentPushes - c = 0) :
      WorkerStep cfg ⟨q, c⟩ ⟨q, c⟩
  | complete (q c : Nat) (h : 0 < c) : WorkerStep cfg ⟨q, c⟩ ⟨q, c - 1⟩
  | enqueue (q c : Nat) : WorkerStep cfg ⟨q, c⟩ ⟨q + 1, c⟩

/-- A worker state reachable from process start (empty queue, no in-flight
deliveries, part_004 lines 738-740). -/
def WorkerReachable (cfg : RushConfig) (s : WorkerState) : Prop :=
  Relation.ReflTransGen (WorkerStep cfg) ⟨0, 0⟩ s

/-- A device log as mapped by pollForNewAttendances (part_004 lines
1123-1137): pollTime is the millisecond value of
parseZktecoTime(log.record_time), which always yields a Date (it falls back
to the current time), so it is modelled as an always-present Nat.  The
filter, the sort comparator and the watermark update all read exactly this
value (the record field timestamp is pollTime.toISOString()). -/
structure PolledLog where
  userId : String
  pollTime : Nat
  deriving DecidableEq

/-- Ordering used by the sort comparator
(a, b) => new Date(a.timestamp) - new Date(b.timestamp)
in part_004 line 1143: ascending millisecond timestamps. -/
def timeLe (a b : PolledLog) : Prop := a.pollTime ≤ b.pollTime

instance : DecidableRel timeLe := fun a b => Nat.decLe a.pollTime b.pollTime

instance : IsTotal PolledLog timeLe :=
  ⟨fun a b => Nat.le_total a.pollTime b.pollTime⟩

instance : IsTrans PolledLog timeLe :=
  ⟨fun _ _ _ hab hbc => Nat.le_trans hab hbc⟩

/-- The newLogs filter of part_004 line 1140: keep records whose pollTime
is strictly greater than lastPolledTimestamp. -/
def pollNewLogs (lastPolledTimestamp : Nat) (deviceLogs : List PolledLog) :
    List PolledLog :=
  deviceLogs.filter (fun lg => lastPolledTimestamp < lg.pollTime)

/-- The in-place ascending sort of part_004 line 1143. -/
def pollSorted (lastPolledTimestamp : Nat) (deviceLogs : List PolledLog) :
    List PolledLog :=
  List.insertionSort timeLe (pollNewLogs lastPolledTimestamp deviceLogs)

/-- The pure part of one successful poll cycle (part_004 lines 1139-1165):
filter the mapped logs to those with pollTime strictly greater than
lastPolledTimestamp, sort ascending by timestamp, and, when any records
remain, feed them to ingestion in that order and advance the watermark to
Math.max over their pollTime values; with no new records the watermark is
unchanged and nothing is admitted.  Returns (admitted records in fed order,
new lastPolledTimestamp). -/
def pollCycle (lastPolledTimestamp : Nat) (deviceLogs : List PolledLog) :
    List PolledLog × Nat :=
  if 0 < (pollSorted lastPolledTimestamp deviceLogs).length then
    (pollSorted lastPolledTimestamp deviceLogs,
     ((pollSorted lastPolledTimestamp deviceLogs).map
        (fun lg => lg.pollTime)).foldl max 0)
  else
    ([], lastPolledTimestamp)

/-- Outcome of one processQueueItem run for a given queue item (part_004
lines 855-909): success (result.success true, processed counter bump),
failure with a scheduled retry (attemptCount below maxRetries: totalErrors
bump, attemptCount incremented, re-enqueue scheduled after the backoff
delay), or terminal failure (retries exhausted: totalErrors bump and a
failed external_api_push broadcast, item dropped). -/
inductive DeliveryOutcome where
  | failure
  | terminalFailure
  | success
  deriving DecidableEq

/-- The per-item retry loop of processQueueItem (part_004 lines 855-909)
driven by the sequence of per-attempt sink results (true = the push
succeeded).  On a failed attempt with attemptCount < maxRetries the count
is incremented first and the re-enqueue is scheduled after
min(baseDelay * 2 ^ attemptCount, maxDelay) milliseconds with the
incremented count (lines 878-890).  Returns the stream of per-attempt
outcomes and the list of inter-attempt backoff delays. -/
def processAttempts (rs : RetryStrategy) :
    Nat → List Bool → List DeliveryOutcome × List Nat
  | _, [] => ([], [])
  | attemptCount, result :: rest =>
    if result then ([DeliveryOutcome.success], [])
    else if attemptCount < rs.maxRetries then
      let backoffDelay := min (rs.baseDelay * 2 ^ (attemptCount + 1)) rs.maxDelay
      let next := processAttempts rs (attemptCount + 1) rest
      (DeliveryOutcome.failure :: next.1, backoffDelay :: next.2)
    else
      ([DeliveryOutcome.terminalFailure], [])

/-- A raw device log as read by the normalizer helpers (part_004 lines
918-944): only the type and state fields are inspected; either may be
absent (undefined), modelled with Option.  A missing log object itself is
the none case of the Option LogData argument. -/
structure LogData where
  type : Option Int
  state : Option Int
  deriving DecidableEq

/-- determineVerificationMethod (part_004 lines 918-930): switch on
logData.type with cases 0, 1, 2, 3, 4, 15 and default Unknown; a missing
logData (falsy) short-circuits to Unknown, and an undefined type falls to
the default case. -/
def determineVerificationMethod (logData : Option LogData) : String :=
  match logData with
  | none => "Unknown"
  | some lg =>
    match lg.type with
    | none => "Unknown"
    | some v =>
      if v = 0 then "Password"
      else if v = 1 then "Fingerprint"
      else if v = 2 then "Card"
      else if v = 3 then "Face"
      else if v = 4 then "Fingerprint or Password"
      else if v = 15 then "Fingerprint or Password"
      else "Unknown"

/-- determinePunchType (part_004 lines 932-944): switch on logData.state
with cases 0 through 5 and default Unknown; a missing logData (falsy)
short-circuits to Unknown, and an undefined state falls to the default. -/
def determinePunchType (logData : Option LogData) : String :=
  match logData with
  | none => "Unknown"
  | some lg =>
    match lg.state with
    | none => "Unknown"
    | some st =>
      if st = 0 then "Check-in"
      else if st = 1 then "Check-out"
      else if st = 2 then "Break-out"
      else if st = 3 then "Break-in"
      else if st = 4 then "Overtime-in"
      else if st = 5 then "Overtime-out"
      else "Unknown"

/-- EXTERNAL_API_CONFIG (part_004 lines 715-719); the url string is not
inspected by any claim. -/
structure ExternalAPIConfig where
  enabled : Bool
  timeout : Nat
  deriving DecidableEq

/-- The shipped EXTERNAL_API_CONFIG constant. -/
def EXTERNAL_API_CONFIG : ExternalAPIConfig where
  enabled := true
  timeout := 8000

/-- The pushStatistics counters (part_004 lines 743-748). -/
structure PushStatistics where
  totalPushes : Nat
  successfulPushes : Nat
  failedPushes : Nat
  deriving DecidableEq

/-- What the sink does with one payload shape: an HTTP response with a
status code, or a thrown fetch error (transport failure or the
AbortSignal timeout firing inside the configured timeout window). -/
inductive ShapeResult where
  | response (status : Nat)
  | transportError (msg : String)
  deriving DecidableEq

/-- response.ok in the fetch API: status in the 2xx range. -/
def isOkStatus (status : Nat) : Bool := 200 ≤ status && status < 300

/-- Whether one shape attempt succeeded. -/
def isOkResult : ShapeResult → Bool
  | ShapeResult.response status => isOkStatus status
  | ShapeResult.transportError _ => false

/-- The error message the loop body stores in lastError for a failed shape
(part_004 lines 1049 and 1052-1054): the HTTP error text for a non-2xx
response, the thrown message for a transport error. -/
def shapeErrorMsg : ShapeResult → String
  | ShapeResult.response status => "HTTP " ++ toString status
  | ShapeResult.transportError msg => msg

/-- The for-loop over payloadVariations (part_004 lines 1003-1058): try
each shape in order, return the first 2xx status, otherwise overwrite
lastError and continue; when every shape is exhausted, throw lastError
(or the generic message when no shape was ever tried). -/
def tryVariations : List ShapeResult → Option String → Except String Nat
  | [], lastError => Except.error (lastError.getD "All payload formats failed")
  | r :: rest, _ =>
    match r with
    | ShapeResult.response status =>
      if isOkStatus status then Except.ok status
      else tryVariations rest (some (shapeErrorMsg (ShapeResult.response status)))
    | ShapeResult.transportError msg =>
      tryVariations rest (some (shapeErrorMsg (ShapeResult.transportError msg)))

/-- The outcome object pushToExternalAPI resolves with: the success flag,
the message field of the disabled branch (part_004 lines 959-963), and the
error field of the failure branch (lines 1069-1078). -/
structure PushOutcome where
  success : Bool
  message : Option String
  error : Option String
  deriving DecidableEq

/-- pushToExternalAPI (part_004 lines 957-1080) as a state-passing function
over pushStatistics, with the responses the sink would give each payload
shape passed explicitly.  When the external API is disabled it returns the
disabled outcome before touching any counter; otherwise totalPushes is
incremented, the payload shapes are tried in order, and either
successfulPushes or failedPushes is incremented.  The function always
returns an outcome: the throw of lastError at line 1058 is caught by the
enclosing catch, which resolves with a failure outcome. -/
def pushToExternalAPI (cfg : ExternalAPIConfig) (stats : PushStatistics)
    (shapeResults : List ShapeResult) : PushStatistics × PushOutcome :=
  if !cfg.enabled then
    (stats,
     { success := false, message := some "External API disabled", error := none })
  else
    match tryVariations shapeResults none with
    | Except.ok _ =>
      ({ stats with
          totalPushes := stats.totalPushes + 1
          successfulPushes := stats.successfulPushes + 1 },
       { success := true, message := none, error := none })
    | Except.error msg =>
      ({ stats with
          totalPushes := stats.totalPushes + 1
          failedPushes := stats.failedPushes + 1 },
       { success := false, message := none, error := some msg })

/-- What one invocation of initializeDevice schedules next (part_004 lines
1627-1741): cooldownScheduled is the guard branch (attempts exhausted: wait
one minute and call initializeDevice again, lines 1629-1634), connected is
a successful connection (counter reset, line 1712), retryScheduled is the
catch branch (counter incremented and a retry scheduled after a
linear-capped delay, lines 1730-1739). -/
inductive InitOutcome where
  | cooldownScheduled (delay : Nat)
  | connected
  | retryScheduled (delay : Nat)
  deriving DecidableEq

/-- One invocation of initializeDevice as a function of the
connectionAttempts counter and of whether the connection attempt (socket
creation within CONNECTION_TIMEOUT) succeeds.  Returns the new counter and
what is scheduled next.  retryDelay = Math.min(5000 * connectionAttempts,
30000) is computed after the increment (part_004 lines 1730, 1737). -/
def initializeDevice (connectionAttempts : Nat) (connectSucceeds : Bool) :
    Nat × InitOutcome :=
  if MAX_RETRIES ≤ connectionAttempts then
    (0, InitOutcome.cooldownScheduled 60000)
  else if connectSucceeds then
    (0, InitOutcome.connected)
  else
    (connectionAttempts + 1,
     InitOutcome.retryScheduled (min (5000 * (connectionAttempts + 1)) 30000))

/-- The module state pollForNewAttendances touches (part_004 lines
750-757): whether deviceInstance is set, POLLING_CONFIG.enabled, the
isPollingInProgress flag and the lastPolledTimestamp watermark
(milliseconds). -/
structure PollState where
  hasDevice : Bool
  pollingEnabled : Bool
  isPollingInProgress : Bool
  lastPolledTimestamp : Nat
  deriving DecidableEq

/-- pollForNewAttendances (part_004 lines 1083-1180) over one invocation.
The fetch outcome is passed explicitly: none models getAttendances (or its
10-second race) rejecting — the catch path, where the finally block still
clears isPollingInProgress and the watermark is not advanced; some logs is
a successful fetch running the pure pollCycle.  If the guard at entry
fails (no device, polling disabled, or a previous poll still in flight)
the function returns immediately: no fetch, no admission, no state change.
Returns the post-invocation state and the records fed to ingestion. -/
def pollForNewAttendances (s : PollState)
    (fetchResult : Option (List PolledLog)) : PollState × List PolledLog :=
  if !s.hasDevice || !s.pollingEnabled || s.isPollingInProgress then
    (s, [])
  else
    match fetchResult with
    | none => ({ s with isPollingInProgress := false }, [])
    | some deviceLogs =>
      ({ s with
          isPollingInProgress := false
          lastPolledTimestamp := (pollCycle s.lastPolledTimestamp deviceLogs).2 },
       (pollCycle s.lastPolledTimestamp deviceLogs).1)

/-- The state the rush-handling control endpoint manipulates (part_004
lines 1308-1353): the queue state plus the isProcessingQueue flag.  The
flag doubles as the pause switch and the is-the-drain-loop-running marker:
isProcessingQueue = true means processQueue is running and dispatching
batches; the pause action sets it to false, which makes the running loop
stop before its next batch (the while condition at line 816). -/
structure ControlState where
  rush : RushState
  isProcessingQueue : Bool
  deriving DecidableEq

/-- The initial control state at process start. -/
def controlInit : ControlState :=
  { rush := initialRushState, isProcessingQueue := false }

/-- Operator and ingestion actions touching the control state: pause and
resume from the control endpoint (part_004 lines 1313-1323) and an
admission through addToProcessingQueue (lines 768-801). -/
inductive ControlAction where
  | pause
  | resume
  | enqueue (item : QueueItem)
  deriving DecidableEq

/-- One control-state transition.  pause: isProcessingQueue = false (line
1314), queue untouched.  resume: call processQueue when not already
running and the queue is non-empty (lines 1319-1321), which sets the flag
and starts dispatching.  enqueue: addToProcessingQueue admits the item and
then, seeing isProcessingQueue false, schedules processQueue (lines
790-792), which sets the flag and starts dispatching; when the flag is
already true it stays true. -/
def controlStep (cfg : RushConfig) (s : ControlState) :
    ControlAction → ControlState
  | ControlAction.pause => { s with isProcessingQueue := false }
  | ControlAction.resume =>
    if !s.isProcessingQueue && !(s.rush.pushQueue.isEmpty) then
      { s with isProcessingQueue := true }
    else s
  | ControlAction.enqueue item =>
    { rush := addToProcessingQueue cfg s.rush item, isProcessingQueue := true }

/-- Run a sequence of control actions from a state. -/
def runControl (cfg : RushConfig) (s : ControlState)
    (l : List ControlAction) : ControlState :=
  l.foldl (controlStep cfg) s

lemma addToProcessingQueue_full (cfg : RushConfig) (s : RushState)
    (item : QueueItem) (h : cfg.queueSize ≤ s.pushQueue.length) :
    addToProcessingQueue cfg s item =
      { pushQueue := s.pushQueue.tail ++ [item], totalDropped := s.totalDropped + 1,
        totalQueued := s.totalQueued + 1 } := by
  unfold addToProcessingQueue
  simp [h]

lemma addToProcessingQueue_spare (cfg : RushConfig) (s : RushState)
    (item : QueueItem) (h : s.pushQueue.length < cfg.queueSize) :
    addToProcessingQueue cfg s item =
      { pushQueue := s.pushQueue ++ [item], totalDropped := s.totalDropped,
        totalQueued := s.totalQueued + 1 } := by
  unfold addToProcessingQueue
  simp [not_le.mpr h]

lemma addToProcessingQueue_length (cfg : RushConfig) (hcap : 0 < cfg.queueSize)
    (s : RushState) (hs : s.pushQueue.length ≤ cfg.queueSize) (item : QueueItem) :
    (addToProcessingQueue cfg s item).pushQueue.length =
      min (s.pushQueue.length + 1) cfg.queueSize := by
  by_cases h : cfg.queueSize ≤ s.pushQueue.length
  · have hfull : s.pushQueue.length = cfg.queueSize := le_antisymm hs h
    rw [addToProcessingQueue_full cfg s item h]
    simp [List.length_tail, hfull]
    omega
  · rw [addToProcessingQueue_spare cfg s item (not_le.mp h)]
    simp
    omega

lemma runAdmissions_fresh_length (cfg : RushConfig) (hcap : 0 < cfg.queueSize)
    (items : List QueueItem) :
    ∀ s : RushState, s.pushQueue.length ≤ cfg.queueSize →
      (runAdmissions cfg s (items.map Admission.fresh)).pushQueue.length =
        min (s.pushQueue.length + items.length) cfg.queueSize := by
  induction items with
  | nil =>
    intro s hs
    simp [runAdmissions]
    omega
  | cons item rest ih =>
    intro s hs
    have hstep := addToProcessingQueue_length cfg hcap s hs item
    have hle : (addToProcessingQueue cfg s item).pushQueue.length ≤ cfg.queueSize := by
      rw [hstep]; omega
    have := ih (addToProcessingQueue cfg s item) hle
    simp only [List.map_cons, runAdmissions, List.foldl_cons] at *
    simp only [applyAdmission]
    rw [this, hstep]
    simp
    omega

lemma runAdmissions_append (cfg : RushConfig) (s : RushState)
    (l1 l2 : List Admission) :
    runAdmissions cfg s (l1 ++ l2) = runAdmissions cfg (runAdmissions cfg s l1) l2 := by
  simp [runAdmissions, List.foldl_append]

/-- C1: the claim as stated is false.  The claimed bound is supposed to hold
for every sequence of admissions including retry re-admissions, but the
retry re-admission in processQueueItem (part_004 lines 884-890) pushes onto
pushQueue with no capacity check: after 500 fresh admissions fill the queue
to its capacity of 500, one retry re-admission makes the length 501. -/
theorem C1_queue_capacity_counterexample :
    RUSH_HANDLING_CONFIG.queueSize <
      (runAdmissions RUSH_HANDLING_CONFIG initialRushState
        (List.replicate 500 (Admission.fresh sampleItem) ++
          [Admission.retry sampleItem])).pushQueue.length := by
  have hmap : (List.replicate 500 sampleItem).map Admission.fresh =
      List.replicate 500 (Admission.fresh sampleItem) := List.map_replicate
  have h := runAdmissions_fresh_length RUSH_HANDLING_CONFIG (by decide)
      (List.replicate 500 sampleItem) initialRushState (by decide)
  rw [hmap] at h
  have h2 : (runAdmissions RUSH_HANDLING_CONFIG initialRushState
      (List.replicate 500 (Admission.fresh sampleItem))).pushQueue.length = 500 := by
    rw [h, List.length_replicate]
    decide
  rw [runAdmissions_append]
  have h3 : runAdmissions RUSH_HANDLING_CONFIG
      (runAdmissions RUSH_HANDLING_CONFIG initialRushState
        (List.replicate 500 (Admission.fresh sampleItem)))
      [Admission.retry sampleItem] =
      retryPushBack (runAdmissions RUSH_HANDLING_CONFIG initialRushState
        (List.replicate 500 (Admission.fresh sampleItem))) sampleItem := rfl
  rw [h3]
  have h4 : ∀ s : RushState,
      (retryPushBack s sampleItem).pushQueue.length = s.pushQueue.length + 1 := by
    intro s; simp [retryPushBack]
  rw [h4, h2]
  decide

/-- C1 (amended): the capacity bound and the drop-oldest policy hold for the
fresh-admission path only.  Starting from any state within capacity, any
sequence of fresh admissions through addToProcessingQueue keeps the queue
length at most queueSize; a fresh admission finding the queue at capacity
evicts exactly the single oldest item (the list head) and increments the
dropped counter by exactly one, while an admission below capacity keeps
every queued item and leaves the counter alone.  Retry re-admissions from
processQueueItem append unconditionally, so they can exceed the capacity. -/
theorem C1_queue_capacity_amended (cfg : RushConfig) (hcap : 0 < cfg.queueSize)
    (s : RushState) (hs : s.pushQueue.length ≤ cfg.queueSize) :
    (∀ items : List QueueItem,
      (runAdmissions cfg s (items.map Admission.fresh)).pushQueue.length ≤
        cfg.queueSize) ∧
    (∀ item, cfg.queueSize ≤ s.pushQueue.length →
      (addToProcessingQueue cfg s item).pushQueue = s.pushQueue.tail ++ [item] ∧
      (addToProcessingQueue cfg s item).totalDropped = s.totalDropped + 1 ∧
      (addToProcessingQueue cfg s item).pushQueue.length = s.pushQueue.length) ∧
    (∀ item, s.pushQueue.length < cfg.queueSize →
      (addToProcessingQueue cfg s item).pushQueue = s.pushQueue ++ [item] ∧
      (addToProcessingQueue cfg s item).totalDropped = s.totalDropped) ∧
    (∀ item, (retryPushBack s item).pushQueue = s.pushQueue ++ [item]) := by
  refine ⟨?_, ?_, ?_, ?_⟩
  · intro items
    rw [runAdmissions_fresh_length cfg hcap items s hs]
    omega
  · intro item hfull
    have hlen : s.pushQueue.length = cfg.queueSize := le_antisymm hs hfull
    rw [addToProcessingQueue_full cfg s item hfull]
    refine ⟨rfl, rfl, ?_⟩
    simp [List.length_tail, hlen]
    omega
  · intro item hlt
    rw [addToProcessingQueue_spare cfg s item hlt]
    exact ⟨rfl, rfl⟩
  · intro item
    rfl

/-- Concrete instance of the amended C1 theorem. -/
theorem C1_queue_capacity_amended_witness :
    (runAdmissions RUSH_HANDLING_CONFIG initialRushState
      ([sampleItem].map Admission.fresh)).pushQueue.length ≤
      RUSH_HANDLING_CONFIG.queueSize :=
  (C1_queue_capacity_amended RUSH_HANDLING_CONFIG (by decide) initialRushState
    (by decide)).1 [sampleItem]

lemma workerStep_bound (cfg : RushConfig) {s t : WorkerState}
    (hstep : WorkerStep cfg s t)
    (hs : s.concurrentPushCount ≤ cfg.maxConcurrentPushes) :
    t.concurrentPushCount ≤ cfg.maxConcurrentPushes := by
  cases hstep with
  | dispatch q c h =>
    simp only at *
    have h1 : min (min (cfg.maxConcurrentPushes - c) cfg.batchSize) q ≤
        cfg.maxConcurrentPushes - c :=
      le_trans (Nat.min_le_left _ _) (Nat.min_le_left _ _)
    omega
  | waitRecheck q c h => exact hs
  | complete q c h => simp only at *; omega
  | enqueue q c => exact hs

/-- C2: in every reachable state of the worker loop the number of in-flight
deliveries never exceeds maxConcurrentPushes.  Each dispatch takes at most
availableSlots = maxConcurrentPushes - concurrentPushCount items (part_004
lines 817-831), each completion only decrements, and the waitRecheck branch
dispatches nothing, so the bound is inductive over all reachable states. -/
theorem C2_concurrency_cap (cfg : RushConfig) (s : WorkerState)
    (h : WorkerReachable cfg s) :
    s.concurrentPushCount ≤ cfg.maxConcurrentPushes := by
  induction h with
  | refl => simp
  | tail _ hstep ih => exact workerStep_bound cfg hstep ih

/-- Concrete instance of C2: the state after one enqueue and one dispatch
from process start is reachable and respects the cap. -/
theorem C2_concurrency_cap_witness :
    (WorkerState.mk 0 1).concurrentPushCount ≤
      RUSH_HANDLING_CONFIG.maxConcurrentPushes :=
  C2_concurrency_cap RUSH_HANDLING_CONFIG ⟨0, 1⟩
    (Relation.ReflTransGen.tail
      (Relation.ReflTransGen.single (WorkerStep.enqueue 0 0))
      (show WorkerStep RUSH_HANDLING_CONFIG ⟨1, 0⟩ ⟨0, 1⟩ from
        WorkerStep.dispatch 1 0 (by decide)))

lemma foldl_max_le {l : List Nat} {a b : Nat} (ha : a ≤ b)
    (hl : ∀ x ∈ l, x ≤ b) : l.foldl max a ≤ b := by
  induction l generalizing a with
  | nil => simpa using ha
  | cons x xs ih =>
    simp only [List.foldl_cons]
    exact ih (max_le ha (hl x (List.mem_cons_self x xs)))
      (fun y hy => hl y (List.mem_cons_of_mem x hy))

lemma le_foldl_max (l : List Nat) (a : Nat) : a ≤ l.foldl max a := by
  induction l generalizing a with
  | nil => simp
  | cons x xs ih => exact le_trans (le_max_left a x) (ih (max a x))

lemma mem_le_foldl_max {l : List Nat} {x : Nat} (hx : x ∈ l) (a : Nat) :
    x ≤ l.foldl max a := by
  induction l generalizing a with
  | nil => cases hx
  | cons y ys ih =>
    rcases List.mem_cons.mp hx with h | h
    · subst h
      exact le_trans (le_max_right a x) (le_foldl_max ys (max a x))
    · exact ih h (max a y)

lemma foldl_max_mem {l : List Nat} (hne : l ≠ []) (a : Nat) :
    l.foldl max a = a ∨ l.foldl max a ∈ l := by
  induction l generalizing a with
  | nil => exact absurd rfl hne
  | cons x xs ih =>
    simp only [List.foldl_cons]
    by_cases hxs : xs = []
    · subst hxs
      simp only [List.foldl_nil]
      rcases le_total a x with h | h
      · right; simp [max_eq_right h]
      · left; exact max_eq_left h
    · rcases ih hxs (max a x) with h | h
      · rcases le_total a x with h2 | h2
        · right; rw [h, max_eq_right h2]; exact List.mem_cons_self x xs
        · left; rw [h]; exact max_eq_left h2
      · right; exact List.mem_cons_of_mem x h

lemma pollCycle_pos (wm : Nat) (logs : List PolledLog)
    (h : 0 < (pollSorted wm logs).length) :
    pollCycle wm logs =
      (pollSorted wm logs,
       ((pollSorted wm logs).map (fun lg => lg.pollTime)).foldl max 0) := by
  unfold pollCycle
  rw [if_pos h]

lemma pollCycle_empty (wm : Nat) (logs : List PolledLog)
    (h : ¬ 0 < (pollSorted wm logs).length) :
    pollCycle wm logs = ([], wm) := by
  unfold pollCycle
  rw [if_neg h]

/-- C3: for every completed poll cycle, every admitted record has a
timestamp strictly above the watermark held before the cycle, the admitted
records are fed to ingestion sorted ascending by timestamp and are exactly
the filtered device records, the watermark never decreases, it is unchanged
when nothing is admitted, and when records are admitted the new watermark
is the maximum admitted timestamp; a failed cycle leaves the watermark
unchanged. -/
theorem C3_poll_cycle (wm : Nat) (logs : List PolledLog) :
    (∀ lg ∈ (pollCycle wm logs).1, wm < lg.pollTime) ∧
    List.Sorted timeLe (pollCycle wm logs).1 ∧
    (pollCycle wm logs).1.Perm (logs.filter (fun lg => wm < lg.pollTime)) ∧
    wm ≤ (pollCycle wm logs).2 ∧
    ((pollCycle wm logs).1 = [] → (pollCycle wm logs).2 = wm) ∧
    ((pollCycle wm logs).1 ≠ [] →
      (pollCycle wm logs).2 ∈ (pollCycle wm logs).1.map (fun lg => lg.pollTime) ∧
      ∀ lg ∈ (pollCycle wm logs).1, lg.pollTime ≤ (pollCycle wm logs).2) ∧
    (∀ ps : PollState, (pollForNewAttendances ps none).1.lastPolledTimestamp =
      ps.lastPolledTimestamp) := by
  have hfailcase : ∀ ps : PollState,
      (pollForNewAttendances ps none).1.lastPolledTimestamp =
        ps.lastPolledTimestamp := by
    intro ps
    unfold pollForNewAttendances
    by_cases hg : (!ps.hasDevice || !ps.pollingEnabled ||
        ps.isPollingInProgress) = true
    · rw [if_pos hg]
    · rw [if_neg hg]
  have hperm : (pollSorted wm logs).Perm (pollNewLogs wm logs) :=
    List.perm_insertionSort timeLe (pollNewLogs wm logs)
  have hmem : ∀ lg ∈ pollSorted wm logs, wm < lg.pollTime := by
    intro lg hlg
    have := hperm.mem_iff.mp hlg
    simp only [pollNewLogs, List.mem_filter, decide_eq_true_eq] at this
    exact this.2
  by_cases hlen : 0 < (pollSorted wm logs).length
  · rw [pollCycle_pos wm logs hlen]
    have hne : pollSorted wm logs ≠ [] := by
      intro hnil; rw [hnil] at hlen; simp at hlen
    have hmapne : (pollSorted wm logs).map (fun lg => lg.pollTime) ≠ [] := by
      simpa using hne
    obtain ⟨lg0, hlg0⟩ := List.exists_mem_of_ne_nil _ hne
    have h1 : lg0.pollTime ∈ (pollSorted wm logs).map (fun lg => lg.pollTime) :=
      List.mem_map_of_mem _ hlg0
    have h2 := mem_le_foldl_max h1 0
    have h3 := hmem lg0 hlg0
    have hmax_mem : ((pollSorted wm logs).map (fun lg => lg.pollTime)).foldl
        max 0 ∈ (pollSorted wm logs).map (fun lg => lg.pollTime) := by
      rcases foldl_max_mem hmapne 0 with h0 | h0
      · omega
      · exact h0
    refine ⟨hmem, List.sorted_insertionSort timeLe _, hperm, by omega, ?_, ?_,
      hfailcase⟩
    · intro hnil; exact absurd hnil hne
    · intro _
      refine ⟨hmax_mem, ?_⟩
      intro lg hlg
      exact mem_le_foldl_max (List.mem_map_of_mem _ hlg) 0
  · rw [pollCycle_empty wm logs hlen]
    have hsorted_nil : pollSorted wm logs = [] := by
      cases h : pollSorted wm logs with
      | nil => rfl
      | cons a l => rw [h] at hlen; simp at hlen
    have hfilter_nil : pollNewLogs wm logs = [] := by
      rw [hsorted_nil] at hperm
      exact hperm.symm.eq_nil
    refine ⟨by simp, by simp, ?_, le_refl wm, fun _ => rfl, by simp, hfailcase⟩
    have : logs.filter (fun lg => wm < lg.pollTime) = [] := hfilter_nil
    rw [this]

/-- Concrete instance of C3: with watermark 5 and device records at
timestamps 9 and 7, some record is admitted and the new watermark is one of
the admitted timestamps. -/
theorem C3_poll_cycle_witness :
    (pollCycle 5 [PolledLog.mk "u" 9, PolledLog.mk "v" 7]).2 ∈
      (pollCycle 5 [PolledLog.mk "u" 9, PolledLog.mk "v" 7]).1.map
        (fun lg => lg.pollTime) :=
  (((C3_poll_cycle 5 [PolledLog.mk "u" 9, PolledLog.mk "v" 7]).2.2.2.2.2.1)
    (by decide)).1

lemma processAttempts_fail_retry (rs : RetryStrategy) (c : Nat)
    (rest : List Bool) (h : c < rs.maxRetries) :
    processAttempts rs c (false :: rest) =
      (DeliveryOutcome.failure :: (processAttempts rs (c + 1) rest).1,
       min (rs.baseDelay * 2 ^ (c + 1)) rs.maxDelay ::
         (processAttempts rs (c + 1) rest).2) := by
  simp [processAttempts, h]

lemma processAttempts_fail_terminal (rs : RetryStrategy) (c : Nat)
    (rest : List Bool) (h : rs.maxRetries ≤ c) :
    processAttempts rs c (false :: rest) =
      ([DeliveryOutcome.terminalFailure], []) := by
  simp [processAttempts, Nat.not_lt.mpr h]

lemma processAttempts_trace (rs : RetryStrategy) :
    ∀ k c : Nat, c + k ≤ rs.maxRetries →
      processAttempts rs c (List.replicate k false ++ [true]) =
        (List.replicate k DeliveryOutcome.failure ++ [DeliveryOutcome.success],
         (List.range k).map
           (fun i => min (rs.baseDelay * 2 ^ (c + i + 1)) rs.maxDelay)) := by
  intro k
  induction k with
  | zero =>
    intro c _
    simp [processAttempts]
  | succ k ih =>
    intro c hc
    have hlt : c < rs.maxRetries := by omega
    rw [List.replicate_succ, List.cons_append,
      processAttempts_fail_retry rs c _ hlt, ih (c + 1) (by omega)]
    refine Prod.ext ?_ ?_
    · simp [List.replicate_succ]
    · simp only []
      rw [List.range_succ_eq_map]
      simp only [List.map_cons, List.map_map]
      refine congrArg₂ List.cons (by norm_num) ?_
      apply List.map_congr_left
      intro i _
      simp only [Function.comp]
      have he : c + 1 + i + 1 = c + (i + 1) + 1 := by omega
      rw [he]

lemma min_pow_mono (b M : Nat) {i j : Nat} (hij : i ≤ j) :
    min (b * 2 ^ (i + 1)) M ≤ min (b * 2 ^ (j + 1)) M :=
  min_le_min
    (Nat.mul_le_mul_left b (Nat.pow_le_pow_right (by norm_num) (by omega)))
    (le_refl M)

/-- C4: a queue item that fails k < maxRetries delivery attempts and then
succeeds produces exactly k failure outcomes followed by one success, with
the i-th re-enqueue scheduled after min(baseDelay * 2 ^ (i + 1), maxDelay)
milliseconds (the incremented attemptCount is used in the exponent), a
non-decreasing delay sequence; and an attempt that fails with retries
exhausted yields a single terminal failure outcome with nothing
re-enqueued. -/
theorem C4_retry_backoff (rs : RetryStrategy) (k : Nat)
    (hk : k < rs.maxRetries) :
    processAttempts rs 0 (List.replicate k false ++ [true]) =
      (List.replicate k DeliveryOutcome.failure ++ [DeliveryOutcome.success],
       (List.range k).map
         (fun i => min (rs.baseDelay * 2 ^ (i + 1)) rs.maxDelay)) ∧
    List.Chain' (fun x y => x ≤ y)
      ((List.range k).map
        (fun i => min (rs.baseDelay * 2 ^ (i + 1)) rs.maxDelay)) ∧
    (∀ c rest, rs.maxRetries ≤ c →
      processAttempts rs c (false :: rest) =
        ([DeliveryOutcome.terminalFailure], [])) := by
  refine ⟨?_, ?_, ?_⟩
  · have := processAttempts_trace rs k 0 (by omega)
    simpa using this
  · apply List.Pairwise.chain'
    rw [List.pairwise_map]
    exact (List.pairwise_lt_range k).imp
      (fun hij => min_pow_mono rs.baseDelay rs.maxDelay (le_of_lt hij))
  · intro c rest hc
    exact processAttempts_fail_terminal rs c rest hc

/-- Concrete instance of C4 at the shipped retry strategy (maxRetries 2,
baseDelay 1000, maxDelay 5000): one failure then success gives the outcome
stream failure, success. -/
theorem C4_retry_backoff_witness :
    processAttempts RUSH_HANDLING_CONFIG.retryStrategy 0
        (List.replicate 1 false ++ [true]) =
      (List.replicate 1 DeliveryOutcome.failure ++ [DeliveryOutcome.success],
       (List.range 1).map
         (fun i => min (RUSH_HANDLING_CONFIG.retryStrategy.baseDelay * 2 ^ (i + 1))
           RUSH_HANDLING_CONFIG.retryStrategy.maxDelay)) :=
  (C4_retry_backoff RUSH_HANDLING_CONFIG.retryStrategy 1 (by decide)).1

/-- C5: normalization of the verification and punch codes is total and
never fails: verification code 3 maps to Face and punch code 1 to
Check-out; a missing log object or missing code field yields Unknown; and
every code outside the known enumerations maps to Unknown. -/
theorem C5_normalization_total :
    determineVerificationMethod (some (LogData.mk (some 3) (some 1))) = "Face" ∧
    determinePunchType (some (LogData.mk (some 3) (some 1))) = "Check-out" ∧
    determineVerificationMethod none = "Unknown" ∧
    determinePunchType none = "Unknown" ∧
    (∀ lg : LogData, lg.type = none →
      determineVerificationMethod (some lg) = "Unknown") ∧
    (∀ lg : LogData, lg.state = none →
      determinePunchType (some lg) = "Unknown") ∧
    (∀ v : Int, v ∉ ([0, 1, 2, 3, 4, 15] : List Int) → ∀ st : Option Int,
      determineVerificationMethod (some (LogData.mk (some v) st)) = "Unknown") ∧
    (∀ st : Int, st ∉ ([0, 1, 2, 3, 4, 5] : List Int) → ∀ t : Option Int,
      determinePunchType (some (LogData.mk t (some st))) = "Unknown") := by
  refine ⟨rfl, rfl, rfl, rfl, ?_, ?_, ?_, ?_⟩
  · intro lg h
    simp [determineVerificationMethod, h]
  · intro lg h
    simp [determinePunchType, h]
  · intro v hv st
    simp only [List.mem_cons, List.not_mem_nil, or_false, not_or] at hv
    obtain ⟨h0, h1, h2, h3, h4, h15⟩ := hv
    simp [determineVerificationMethod, h0, h1, h2, h3, h4, h15]
  · intro st hst t
    simp only [List.mem_cons, List.not_mem_nil, or_false, not_or] at hst
    obtain ⟨h0, h1, h2, h3, h4, h5⟩ := hst
    simp [determinePunchType, h0, h1, h2, h3, h4, h5]

/-- Concrete instance of C5: code 7 is outside the verification enumeration
and maps to Unknown. -/
theorem C5_normalization_total_witness :
    determineVerificationMethod (some (LogData.mk (some 7) (some 0))) =
      "Unknown" :=
  C5_normalization_total.2.2.2.2.2.2.1 7 (by decide) (some 0)

lemma tryVariations_isOk (results : List ShapeResult) :
    ∀ lastError, (tryVariations results lastError).isOk = results.any isOkResult := by
  induction results with
  | nil => intro lastError; simp [tryVariations, Except.isOk, Except.toBool]
  | cons r rest ih =>
    intro lastError
    cases r with
    | response status =>
      by_cases h : isOkStatus status
      · simp [tryVariations, h, Except.isOk, Except.toBool, List.any_cons,
          isOkResult]
      · simp [tryVariations, h, List.any_cons, isOkResult, ih]
    | transportError msg =>
      simp [tryVariations, List.any_cons, isOkResult, ih]

lemma tryVariations_all_fail (results : List ShapeResult) :
    ∀ (d : ShapeResult) (lastError : Option String),
      (∀ r ∈ results, isOkResult r = false) → results ≠ [] →
      tryVariations results lastError =
        Except.error (shapeErrorMsg (results.getLastD d)) := by
  induction results with
  | nil => intro _ _ _ hne; exact absurd rfl hne
  | cons r rest ih =>
    intro d lastError hfail _
    have hr : isOkResult r = false := hfail r (List.mem_cons_self r rest)
    have hstep : tryVariations (r :: rest) lastError =
        tryVariations rest (some (shapeErrorMsg r)) := by
      cases r with
      | response status =>
        have hst : isOkStatus status = false := hr
        simp [tryVariations, hst]
      | transportError msg => rfl
    rw [hstep, List.getLastD_cons]
    cases hrest : rest with
    | nil =>
      subst hrest
      simp [tryVariations, List.getLastD]
    | cons r2 rest2 =>
      rw [← hrest]
      have hne2 : rest ≠ [] := by rw [hrest]; exact List.cons_ne_nil r2 rest2
      have hfail2 : ∀ x ∈ rest, isOkResult x = false := by
        intro x hx; exact hfail x (List.mem_cons_of_mem r hx)
      exact ih r _ hfail2 hne2

lemma pushToExternalAPI_success (stats : PushStatistics)
    (results : List ShapeResult) :
    (pushToExternalAPI EXTERNAL_API_CONFIG stats results).2.success =
      (tryVariations results none).isOk := by
  unfold pushToExternalAPI
  rw [if_neg (by decide)]
  cases h : tryVariations results none with
  | ok s => simp [Except.isOk, Except.toBool]
  | error e => simp [Except.isOk, Except.toBool]

/-- C6: with the external API enabled, the sink client tries the payload
shapes in their fixed order and reports success exactly when some shape
receives a 2xx response; when every shape fails (non-2xx status, transport
error or timeout) the outcome is a failure carrying the error message of
the last shape tried, and the client resolves with an outcome rather than
throwing (the Lean embedding is a total function into outcomes). -/
theorem C6_sink_client (stats : PushStatistics) (results : List ShapeResult) :
    ((pushToExternalAPI EXTERNAL_API_CONFIG stats results).2.success = true ↔
      ∃ r ∈ results, isOkResult r = true) ∧
    ((∀ r ∈ results, isOkResult r = false) → results ≠ [] →
      (pushToExternalAPI EXTERNAL_API_CONFIG stats results).2.success = false ∧
      (pushToExternalAPI EXTERNAL_API_CONFIG stats results).2.error =
        some (shapeErrorMsg
          (results.getLastD (ShapeResult.transportError "")))) := by
  constructor
  · rw [pushToExternalAPI_success, tryVariations_isOk]
    simp [List.any_eq_true]
  · intro hfail hne
    have herr := tryVariations_all_fail results
      (ShapeResult.transportError "") none hfail hne
    constructor
    · rw [pushToExternalAPI_success, tryVariations_isOk]
      exact List.any_eq_false.mpr
        (fun x hx => by rw [hfail x hx]; exact Bool.false_ne_true)
    · unfold pushToExternalAPI
      rw [if_neg (by decide), herr]

/-- Concrete instance of C6: a transport error on the first shape followed
by a 200 on the second yields a success outcome. -/
theorem C6_sink_client_witness :
    (pushToExternalAPI EXTERNAL_API_CONFIG (PushStatistics.mk 0 0 0)
      [ShapeResult.transportError "timeout",
       ShapeResult.response 200]).2.success = true :=
  (C6_sink_client (PushStatistics.mk 0 0 0)
    [ShapeResult.transportError "timeout", ShapeResult.response 200]).1.mpr
    ⟨ShapeResult.response 200, by decide, by decide⟩

/-- C10: with the external API disabled every push returns the disabled
failure outcome at once, independent of what the sink would answer (no
HTTP request is observable), and leaves every pushStatistics counter
unchanged; with the API enabled every push increments totalPushes by
exactly one. -/
theorem C10_disabled_no_side_effects (cfg : ExternalAPIConfig)
    (stats : PushStatistics) (results altResults : List ShapeResult) :
    (cfg.enabled = false →
      pushToExternalAPI cfg stats results =
        (stats,
         { success := false, message := some "External API disabled",
           error := none }) ∧
      pushToExternalAPI cfg stats results =
        pushToExternalAPI cfg stats altResults) ∧
    (cfg.enabled = true →
      (pushToExternalAPI cfg stats results).1.totalPushes =
        stats.totalPushes + 1) := by
  constructor
  · intro h
    have hb : (!cfg.enabled) = true := by rw [h]; rfl
    constructor
    · unfold pushToExternalAPI
      rw [if_pos hb]
    · unfold pushToExternalAPI
      rw [if_pos hb, if_pos hb]
  · intro h
    have hb : ¬ ((!cfg.enabled) = true) := by rw [h]; simp
    unfold pushToExternalAPI
    rw [if_neg hb]
    cases h2 : tryVariations results none with
    | ok s => rfl
    | error e => rfl

/-- Concrete instance of C10: with a disabled configuration the statistics
counters are returned untouched together with the disabled outcome. -/
theorem C10_disabled_no_side_effects_witness :
    pushToExternalAPI (ExternalAPIConfig.mk false 8000)
        (PushStatistics.mk 1 2 3) [] =
      (PushStatistics.mk 1 2 3,
       { success := false, message := some "External API disabled",
         error := none }) :=
  ((C10_disabled_no_side_effects (ExternalAPIConfig.mk false 8000)
    (PushStatistics.mk 1 2 3) [] []).1 rfl).1

/-- C7: after the n-th consecutive connection failure with n below
MAX_RETRIES the next attempt is scheduled after min(5000 * n, 30000)
milliseconds; once the counter reaches MAX_RETRIES = 5 the next invocation
waits the one-minute cooldown, resets the counter to zero and schedules a
fresh attempt; and no failing invocation is terminal: every failure
schedules another invocation, so the manager retries indefinitely. -/
theorem C7_link_backoff :
    (∀ n, n + 1 ≤ MAX_RETRIES →
      initializeDevice n false =
        (n + 1, InitOutcome.retryScheduled (min (5000 * (n + 1)) 30000))) ∧
    (∀ n, MAX_RETRIES ≤ n → ∀ r,
      initializeDevice n r = (0, InitOutcome.cooldownScheduled 60000)) ∧
    (∀ n r, (initializeDevice n r).2 = InitOutcome.connected → r = true) ∧
    (∀ n, (initializeDevice n false).2 ≠ InitOutcome.connected ∧
      ((initializeDevice n false).2 = InitOutcome.cooldownScheduled 60000 ∨
       ∃ d, (initializeDevice n false).2 = InitOutcome.retryScheduled d)) := by
  refine ⟨?_, ?_, ?_, ?_⟩
  · intro n hn
    unfold initializeDevice
    rw [if_neg (by omega), if_neg (by simp)]
  · intro n hn r
    unfold initializeDevice
    rw [if_pos hn]
  · intro n r
    unfold initializeDevice
    by_cases h1 : MAX_RETRIES ≤ n
    · rw [if_pos h1]; intro h; cases h
    · rw [if_neg h1]
      cases r with
      | true => intro _; rfl
      | false => rw [if_neg (by simp)]; intro h; cases h
  · intro n
    unfold initializeDevice
    by_cases h1 : MAX_RETRIES ≤ n
    · rw [if_pos h1]
      exact ⟨(by intro h; cases h), Or.inl rfl⟩
    · rw [if_neg h1, if_neg (by simp)]
      exact ⟨(by intro h; cases h), Or.inr ⟨_, rfl⟩⟩

/-- Concrete instance of C7: the third consecutive failure schedules the
next attempt after 15000 ms. -/
theorem C7_link_backoff_witness :
    initializeDevice 2 false = (3, InitOutcome.retryScheduled 15000) := by
  have h := C7_link_backoff.1 2 (by decide)
  simpa using h

/-- C8: poll cycles are single-flighted.  An invocation that finds
isPollingInProgress set performs no work at all: the state (watermark
included) is returned unchanged and nothing is admitted.  An invocation
that enters the cycle always leaves isPollingInProgress cleared, whether
the fetch succeeds or fails (the finally block). -/
theorem C8_poll_single_flight (s : PollState)
    (fetchResult : Option (List PolledLog)) :
    (s.isPollingInProgress = true →
      pollForNewAttendances s fetchResult = (s, [])) ∧
    (s.hasDevice = true → s.pollingEnabled = true →
      s.isPollingInProgress = false →
      (pollForNewAttendances s fetchResult).1.isPollingInProgress = false) ∧
    (s.isPollingInProgress = true →
      (pollForNewAttendances s fetchResult).1.lastPolledTimestamp =
        s.lastPolledTimestamp) := by
  refine ⟨?_, ?_, ?_⟩
  · intro h
    unfold pollForNewAttendances
    rw [if_pos (by rw [h]; simp)]
  · intro hd hp hip
    unfold pollForNewAttendances
    rw [if_neg (by rw [hd, hp, hip]; simp)]
    cases fetchResult with
    | none => rfl
    | some deviceLogs => rfl
  · intro h
    unfold pollForNewAttendances
    rw [if_pos (by rw [h]; simp)]

/-- Concrete instance of C8: a second invocation arriving while a poll is
in flight returns the state unchanged and admits nothing, even though the
device would hand back a fresh record. -/
theorem C8_poll_single_flight_witness :
    pollForNewAttendances (PollState.mk true true true 5)
        (some [PolledLog.mk "u" 9]) =
      (PollState.mk true true true 5, []) :=
  (C8_poll_single_flight (PollState.mk true true true 5)
    (some [PolledLog.mk "u" 9])).1 rfl

/-- C9: the claim as stated is false.  Pausing is expected to stop new
dispatch until a resume, but addToProcessingQueue restarts processQueue
whenever isProcessingQueue is false (part_004 lines 790-792), and pause
works by setting exactly that flag to false (line 1314): after enqueue,
pause, enqueue — with no resume anywhere — the drain loop is running
again, so new delivery dispatch does occur while paused. -/
theorem C9_pause_counterexample :
    (runControl RUSH_HANDLING_CONFIG controlInit
      [ControlAction.enqueue sampleItem, ControlAction.pause,
       ControlAction.enqueue sampleItem]).isProcessingQueue = true := by
  decide

/-- C9 (amended): the pause action itself stops dispatch (it clears the
processing flag, so the running loop halts before its next batch) and
loses no queued item; the resume action restarts draining whenever items
are queued and the loop is stopped, also without touching the queue; but
pause is not sticky: any admission while paused sets the processing flag
back to true and dispatch resumes without a resume action. -/
theorem C9_pause_amended (cfg : RushConfig) (s : ControlState) :
    (controlStep cfg s ControlAction.pause).rush = s.rush ∧
    (controlStep cfg s ControlAction.pause).isProcessingQueue = false ∧
    (s.isProcessingQueue = false → s.rush.pushQueue ≠ [] →
      (controlStep cfg s ControlAction.resume).isProcessingQueue = true ∧
      (controlStep cfg s ControlAction.resume).rush = s.rush) ∧
    (∀ item,
      (controlStep cfg s (ControlAction.enqueue item)).isProcessingQueue =
        true) := by
  refine ⟨rfl, rfl, ?_, fun item => rfl⟩
  intro hflag hne
  have hcond : (!s.isProcessingQueue && !(s.rush.pushQueue.isEmpty)) = true := by
    rw [hflag]
    simp [List.isEmpty_iff, hne]
  constructor
  · show (if !s.isProcessingQueue && !(s.rush.pushQueue.isEmpty) then
        { s with isProcessingQueue := true } else s).isProcessingQueue = true
    rw [if_pos hcond]
  · show (if !s.isProcessingQueue && !(s.rush.pushQueue.isEmpty) then
        { s with isProcessingQueue := true } else s).rush = s.rush
    rw [if_pos hcond]

/-- Concrete instance of the amended C9 theorem: resuming a stopped loop
with one queued item restarts dispatch and keeps the queue intact. -/
theorem C9_pause_amended_witness :
    (controlStep RUSH_HANDLING_CONFIG
      (ControlState.mk (RushState.mk [sampleItem] 0 1) false)
      ControlAction.resume).isProcessingQueue = true :=
  ((C9_pause_amended RUSH_HANDLING_CONFIG
    (ControlState.mk (RushState.mk [sampleItem] 0 1) false)).2.2.1 rfl
    (List.cons_ne_nil sampleItem [])).1

end ZKTeco
